import Mathlib

/-!
Shallow embedding of `src/front/src/services/upbit/upbitApi.ts` (the Upbit
exchange API client).  HTTP transport and the jose JWT signer are external
collaborators and are modelled as function parameters; `uuidv4` is modelled
as an explicit stream of values consumed by a counter (state passing).
JavaScript numbers are modelled as rationals; `Number.prototype.toFixed` and
`Math.round` follow their ECMA-262 definitions on rationals.
Each HTTP-issuing operation returns the list of requests it issued together
with its result, so that claims about traces ("zero network calls",
"exactly one request") are statable.
-/

namespace Upbit

/-- Static configuration resolved from the environment at module load:
`API_BASE_URL`, `ACCESS_KEY`, `SECRET_KEY`, `USE_PROXY`
(upbitApi.ts lines 18-23).  The two keys are `string | undefined` in TS,
hence `Option String` here. -/
structure Config where
  apiBaseUrl : String
  accessKey : Option String
  secretKey : Option String
  useProxy : Bool

/-- `PROXY_BASE_URL = '/api/upbit'` (line 24). -/
def PROXY_BASE_URL : String := "/api/upbit"

/-- `USE_PROXY ? PROXY_BASE_URL : API_BASE_URL` (lines 28 and 150). -/
def Config.baseURL (cfg : Config) : String :=
  if cfg.useProxy then PROXY_BASE_URL else cfg.apiBaseUrl

/-- JavaScript falsiness of a `string | undefined` value: `!x` is true
exactly for `undefined` and the empty string. -/
def falsy : Option String → Bool
  | none => true
  | some s => s = ""

/-- One HTTP GET request as assembled by the client: url, query
parameters (in order), headers. -/
structure Request where
  url : String
  params : List (String × String)
  headers : List (String × String)
deriving DecidableEq

/-- A thrown JavaScript exception: either an error value thrown by an
external collaborator (axios, jose), or an `Error` constructed by this
module with a message string. -/
inductive JSError (ε : Type) where
  | external (e : ε)
  | errorMsg (msg : String)
deriving DecidableEq

/-- The claim set signed for private endpoints: `{access_key, nonce}`
(lines 58-61). -/
structure AuthClaims where
  access_key : String
  nonce : String
deriving DecidableEq

/-- The external JWT signer (`jose.SignJWT … .sign(secret)`): from the
secret key and the claims to a compact token, or a rejection. -/
def Signer (ε : Type) : Type := String → AuthClaims → Except ε String

/-- The `uuidv4` collaborator: a stream of values and a position in it.
Each call to `next` consumes one value. -/
structure UuidGen where
  supply : Nat → String
  counter : Nat

/-- Draw the next uuid from the stream. -/
def UuidGen.next (g : UuidGen) : String × UuidGen :=
  (g.supply g.counter, { g with counter := g.counter + 1 })

/-! ### Record types

The record types come from `src/front/src/types/upbit.ts`, which is not in
the source tree; the shared candle fields below are exactly those read by
the converters in upbitApi.ts (lines 171-177 and 187-193), the rest is
modelled from the spec's data model (variant-specific Upbit fields). -/

/-- Modelled from the spec: a market listing record (identifier and
display names); its contents are opaque to every claim. -/
structure Market where
  market : String
  korean_name : String
  english_name : String
deriving DecidableEq

/-- Modelled from the spec: a current-price snapshot record; its contents
are opaque to every claim. -/
structure Ticker where
  market : String
  trade_price : ℚ
  signed_change_rate : ℚ
deriving DecidableEq

/-- Modelled from the spec: an authenticated balance record (currency,
balance, locked); its contents are opaque to every claim. -/
structure Account where
  currency : String
  balance : ℚ
  locked : ℚ
deriving DecidableEq

/-- A minute candle; the first six fields are the ones the converter reads,
`unit` is the minute-candle-specific field. -/
structure MinuteCandle where
  market : String
  candle_date_time_utc : String
  candle_date_time_kst : String
  opening_price : ℚ
  high_price : ℚ
  low_price : ℚ
  trade_price : ℚ
  timestamp : Nat
  candle_acc_trade_price : ℚ
  candle_acc_trade_volume : ℚ
  unit : Nat
deriving DecidableEq

/-- A day candle; the shared fields plus the day-candle-specific change
fields. -/
structure DayCandle where
  market : String
  candle_date_time_utc : String
  candle_date_time_kst : String
  opening_price : ℚ
  high_price : ℚ
  low_price : ℚ
  trade_price : ℚ
  timestamp : Nat
  candle_acc_trade_price : ℚ
  candle_acc_trade_volume : ℚ
  prev_closing_price : ℚ
  change_rate : ℚ
deriving DecidableEq

/-- The normalized chart point `CandleChartData`
{time, open, high, low, close, volume}. -/
structure CandleChartData where
  time : String
  «open» : ℚ
  high : ℚ
  low : ℚ
  close : ℚ
  volume : ℚ
deriving DecidableEq

/-! ### Signing path (private endpoints) -/

/-- Message of the `Error` thrown by `generateJWT` when the secret key is
falsy (line 39). -/
def SECRET_NOT_CONFIGURED_MSG : String := "UPBIT_SECRET_KEY is not configured"

/-- Message of the `Error` thrown by `getAuthHeaders` when either key is
falsy (line 55). -/
def MISSING_KEY_MSG : String := "API 키가 설정되지 않았습니다. .env 파일을 확인해주세요."

/-- Message of the `Error` thrown by the catch-all in `getAccounts`
(line 159). -/
def ACCOUNTS_FAIL_MSG : String := "계정 정보를 불러오는데 실패했습니다. API 키를 확인해주세요."

variable {ε : Type}

/-- `generateJWT` (lines 37-48): throws if `SECRET_KEY` is falsy, otherwise
signs the payload with the external signer; a signer rejection propagates
as the external error. -/
def generateJWT (cfg : Config) (signer : Signer ε) (payload : AuthClaims) :
    Except (JSError ε) String :=
  if falsy cfg.secretKey then
    .error (.errorMsg SECRET_NOT_CONFIGURED_MSG)
  else
    match signer (cfg.secretKey.getD "") payload with
    | .ok jwt => .ok jwt
    | .error e => .error (.external e)

/-- Construction of the signing payload `{access_key: ACCESS_KEY,
nonce: uuidv4()}` (lines 58-61): draws one fresh uuid from the stream. -/
def freshClaims (cfg : Config) (g : UuidGen) : AuthClaims × UuidGen :=
  let p := g.next
  ({ access_key := cfg.accessKey.getD "", nonce := p.1 }, p.2)

/-- Shape of the header record returned by `getAuthHeaders` from the
signing result (lines 63-68). -/
def jwtResultToHeaders (r : Except (JSError ε) String) :
    Except (JSError ε) (List (String × String)) :=
  match r with
  | .error e => .error e
  | .ok token =>
      .ok [("Authorization", "Bearer " ++ token), ("Accept", "application/json")]

/-- `getAuthHeaders` (lines 53-69): throws if either key is falsy,
otherwise builds a fresh claim set, signs it, and returns the
`Authorization` / `Accept` headers. -/
def getAuthHeaders (cfg : Config) (signer : Signer ε) (g : UuidGen) :
    Except (JSError ε) (List (String × String)) × UuidGen :=
  if falsy cfg.accessKey || falsy cfg.secretKey then
    (.error (.errorMsg MISSING_KEY_MSG), g)
  else
    let pc := freshClaims cfg g
    (jwtResultToHeaders (generateJWT cfg signer pc.1), pc.2)

/-- `getAccounts` (lines 146-161): authenticated GET on `/v1/accounts`;
every failure inside the `try` (auth-header construction, signing, the
HTTP call) is caught and replaced by one `Error` with the fixed message
`ACCOUNTS_FAIL_MSG`.  Returns the issued-request trace, the outcome, and
the uuid-stream state. -/
def getAccounts (cfg : Config) (signer : Signer ε)
    (t : Request → Except ε (List Account)) (g : UuidGen) :
    List Request × Except (JSError ε) (List Account) × UuidGen :=
  let ar := getAuthHeaders cfg signer g
  match ar.1 with
  | .error _ => ([], .error (.errorMsg ACCOUNTS_FAIL_MSG), ar.2)
  | .ok headers =>
      let req : Request :=
        { url := cfg.baseURL ++ "/v1/accounts", params := [], headers := headers }
      match t req with
      | .error _ => ([req], .error (.errorMsg ACCOUNTS_FAIL_MSG), ar.2)
      | .ok v => ([req], .ok v, ar.2)

/-! ### Public (quotation) endpoints -/

/-- Decimal rendering of a natural number (digit characters, most
significant first); fuel-structural so it evaluates in the kernel. -/
def natDigitsAux : Nat → Nat → List Char
  | 0, _ => []
  | fuel + 1, n =>
      if n = 0 then []
      else natDigitsAux fuel (n / 10) ++ [Char.ofNat (48 + n % 10)]

/-- Decimal digit characters of a natural number. -/
def natDigits (n : Nat) : List Char :=
  if n = 0 then ['0'] else natDigitsAux n n

/-- Decimal string of a natural number (the query-parameter serialization
of a JS number that is a non-negative integer). -/
def natRepr (n : Nat) : String := String.mk (natDigits n)

/-- A request through `publicClient` (lines 27-32): base URL plus path,
given query parameters, `Accept: application/json`. -/
def publicReq (cfg : Config) (path : String) (params : List (String × String)) :
    Request :=
  { url := cfg.baseURL ++ path, params := params,
    headers := [("Accept", "application/json")] }

/-- `getMarkets` (lines 76-79): one GET on `/v1/market/all`, result
returned as-is. -/
def getMarkets (cfg : Config) (t : Request → Except ε (List Market)) :
    List Request × Except ε (List Market) :=
  let req := publicReq cfg "/v1/market/all" []
  ([req], t req)

/-- `getMinuteCandles` (lines 87-99): one GET on
`/v1/candles/minutes/{unit}` with params `{market, count}`. -/
def getMinuteCandles (cfg : Config) (t : Request → Except ε (List MinuteCandle))
    (market : String) (unit : Nat) (count : Nat) :
    List Request × Except ε (List MinuteCandle) :=
  let req := publicReq cfg ("/v1/candles/minutes/" ++ natRepr unit)
    [("market", market), ("count", natRepr count)]
  ([req], t req)

/-- `getDayCandles` (lines 107-120): one GET on `/v1/candles/days` with
params `{market, count, convertingPriceUnit}`; axios omits an undefined
parameter. -/
def getDayCandles (cfg : Config) (t : Request → Except ε (List DayCandle))
    (market : String) (count : Nat) (convertingPriceUnit : Option String) :
    List Request × Except ε (List DayCandle) :=
  let req := publicReq cfg "/v1/candles/days"
    ([("market", market), ("count", natRepr count)] ++
      (match convertingPriceUnit with
       | none => []
       | some u => [("convertingPriceUnit", u)]))
  ([req], t req)

/-- `getTicker` (lines 126-139): joins the market codes with commas, one
GET on `/v1/ticker` with the single param `markets`; the `catch` block
rethrows the caught error unchanged. -/
def getTicker (cfg : Config) (t : Request → Except ε (List Ticker))
    (markets : List String) :
    List Request × Except ε (List Ticker) :=
  let marketsParam := String.intercalate "," markets
  let req := publicReq cfg "/v1/ticker" [("markets", marketsParam)]
  ([req],
    match t req with
    | .ok v => .ok v
    | .error e => .error e)

/-! ### Data-conversion utilities (pure) -/

/-- `convertMinuteCandleToChartData` (lines 168-179). -/
def convertMinuteCandleToChartData (candles : List MinuteCandle) :
    List CandleChartData :=
  candles.map fun candle =>
    { time := candle.candle_date_time_kst
      «open» := candle.opening_price
      high := candle.high_price
      low := candle.low_price
      close := candle.trade_price
      volume := candle.candle_acc_trade_volume }

/-- `convertDayCandleToChartData` (lines 184-195). -/
def convertDayCandleToChartData (candles : List DayCandle) :
    List CandleChartData :=
  candles.map fun candle =>
    { time := candle.candle_date_time_kst
      «open» := candle.opening_price
      high := candle.high_price
      low := candle.low_price
      close := candle.trade_price
      volume := candle.candle_acc_trade_volume }

/-- `Math.round` (ECMA-262): round to the nearest integer, half toward
positive infinity. -/
def jsRound (x : ℚ) : ℤ := ⌊x + 1 / 2⌋

/-- Insert one grouping separator after every three characters of a
reversed (least-significant-first) digit list. -/
def group3Aux : Nat → List Char → List Char
  | 0, rds => rds
  | fuel + 1, rds =>
      if rds.length ≤ 3 then rds
      else rds.take 3 ++ [','] ++ group3Aux fuel (rds.drop 3)

/-- Group a (most-significant-first) digit list with comma separators
every three digits from the right. -/
def groupDigits (ds : List Char) : List Char :=
  (group3Aux ds.length ds.reverse).reverse

/-- `new Intl.NumberFormat('ko-KR').format` on an integer: sign, then the
decimal digits grouped in threes by commas. -/
def intlFormatInt (n : ℤ) : String :=
  (if n < 0 then "-" else "") ++ String.mk (groupDigits (natDigits n.natAbs))

/-- `formatPrice` (lines 200-202). -/
def formatPrice (price : ℚ) : String := intlFormatInt (jsRound price)

/-- Two-digit zero-padded rendering of a natural number below 100. -/
def pad2 (k : Nat) : String := if k < 10 then "0" ++ natRepr k else natRepr k

/-- `toFixed(2)` for a non-negative rational, per ECMA-262: the integer n
closest to x*100, ties to the larger n, rendered with two decimals. -/
def toFixed2Abs (x : ℚ) : String :=
  let n : Nat := (⌊x * 100 + 1 / 2⌋).toNat
  natRepr (n / 100) ++ "." ++ pad2 (n % 100)

/-- `Number.prototype.toFixed(2)` per ECMA-262: the sign is taken from the
raw value, the digits from its absolute value. -/
def toFixed2 (x : ℚ) : String :=
  if x < 0 then "-" ++ toFixed2Abs (-x) else toFixed2Abs x

/-- `formatChangeRate` (lines 207-209). -/
def formatChangeRate (rate : ℚ) : String :=
  (if rate ≥ 0 then "+" else "") ++ toFixed2 (rate * 100) ++ "%"

end Upbit

namespace Upbit

/-- Hundredths of the displayed percentage: the magnitude of the rate,
as a percentage, rounded to two decimal places half-up. -/
def pctHundredths (rate : ℚ) : Nat := (⌊|rate| * 100 * 100 + 1 / 2⌋).toNat

/-- Plain (ungrouped) decimal rendering of an integer. -/
def plainIntRepr (n : ℤ) : String :=
  (if n < 0 then "-" else "") ++ natRepr n.natAbs

/-! ### Spec-side definitions for the conversion claims -/

/-- The candle fields shared by the two candle variants and read by the
converters. -/
structure SharedCandleFields where
  candle_date_time_kst : String
  opening_price : ℚ
  high_price : ℚ
  low_price : ℚ
  trade_price : ℚ
  candle_acc_trade_volume : ℚ
deriving DecidableEq

/-- Projection of a minute candle to the shared fields. -/
def MinuteCandle.shared (c : MinuteCandle) : SharedCandleFields :=
  { candle_date_time_kst := c.candle_date_time_kst,
    opening_price := c.opening_price, high_price := c.high_price,
    low_price := c.low_price, trade_price := c.trade_price,
    candle_acc_trade_volume := c.candle_acc_trade_volume }

/-- Projection of a day candle to the shared fields. -/
def DayCandle.shared (c : DayCandle) : SharedCandleFields :=
  { candle_date_time_kst := c.candle_date_time_kst,
    opening_price := c.opening_price, high_price := c.high_price,
    low_price := c.low_price, trade_price := c.trade_price,
    candle_acc_trade_volume := c.candle_acc_trade_volume }

/-- The chart point determined by the shared fields alone. -/
def chartPointOfShared (s : SharedCandleFields) : CandleChartData :=
  { time := s.candle_date_time_kst, «open» := s.opening_price,
    high := s.high_price, low := s.low_price, close := s.trade_price,
    volume := s.candle_acc_trade_volume }

/-! ### Concrete fixtures -/

/-- A fully configured client (both keys present). -/
def cfgFull : Config :=
  { apiBaseUrl := "https://api.upbit.com", accessKey := some "ak",
    secretKey := some "sk", useProxy := false }

/-- A client with no credentials configured. -/
def cfgNoKeys : Config :=
  { apiBaseUrl := "https://api.upbit.com", accessKey := none,
    secretKey := none, useProxy := false }

/-- A uuid stream whose n-th value is n repetitions of 'a'. -/
def gen0 : UuidGen :=
  { supply := fun n => String.mk (List.replicate n 'a'), counter := 0 }

/-- A signer that always succeeds. -/
def signerOk : Signer Unit := fun _ c => .ok (c.access_key ++ "." ++ c.nonce)

/-- A concrete minute candle. -/
def mcEx : MinuteCandle :=
  { market := "KRW-BTC", candle_date_time_utc := "2024-01-01T00:00:00",
    candle_date_time_kst := "2024-01-01T09:00:00", opening_price := 100,
    high_price := 110, low_price := 90, trade_price := 105,
    timestamp := 1704067200, candle_acc_trade_price := 1000,
    candle_acc_trade_volume := 10, unit := 1 }

/-- A concrete day candle agreeing with `mcEx` on the shared fields. -/
def dcEx : DayCandle :=
  { market := "KRW-ETH", candle_date_time_utc := "2024-01-02T00:00:00",
    candle_date_time_kst := "2024-01-01T09:00:00", opening_price := 100,
    high_price := 110, low_price := 90, trade_price := 105,
    timestamp := 1704153600, candle_acc_trade_price := 2000,
    candle_acc_trade_volume := 10, prev_closing_price := 99,
    change_rate := 1 }

/-! ### Helper lemmas -/

/-- Structural case analysis of `getAccounts`: whatever the outcomes of the
auth-header construction and of the transport, a failure outcome carries the
fixed message. -/
lemma getAccounts_error_eq {ε : Type} (cfg : Config) (signer : Signer ε)
    (t : Request → Except ε (List Account)) (g : UuidGen) (e : JSError ε)
    (h : (getAccounts cfg signer t g).2.1 = .error e) :
    e = .errorMsg ACCOUNTS_FAIL_MSG := by
  simp only [getAccounts] at h
  split at h
  · simpa using h.symm
  · split at h
    · simpa using h.symm
    · simp at h

/-- When either credential is falsy, `getAuthHeaders` fails without touching
the uuid stream. -/
lemma getAuthHeaders_missing {ε : Type} (cfg : Config) (signer : Signer ε)
    (g : UuidGen) (h : falsy cfg.accessKey = true ∨ falsy cfg.secretKey = true) :
    getAuthHeaders cfg signer g = (.error (.errorMsg MISSING_KEY_MSG), g) := by
  have hb : (falsy cfg.accessKey || falsy cfg.secretKey) = true := by
    rcases h with h | h <;> simp [h]
  simp [getAuthHeaders, hb]

/-! ### Claims -/

/-- C1: every failure of `getAccounts` — missing credentials, signing
failure, HTTP failure — surfaces as the single generic error with the fixed
message `ACCOUNTS_FAIL_MSG`, the underlying cause being discarded: (1) any
error outcome equals that fixed error; (2) a failing transport always yields
it; (3) a failing signer always yields it. -/
theorem getAccounts_generic_error :
    (∀ (ε : Type) (cfg : Config) (signer : Signer ε)
        (t : Request → Except ε (List Account)) (g : UuidGen) (e : JSError ε),
        (getAccounts cfg signer t g).2.1 = .error e →
        e = .errorMsg ACCOUNTS_FAIL_MSG)
    ∧ (∀ (ε : Type) (cfg : Config) (signer : Signer ε) (g : UuidGen) (e0 : ε),
        (getAccounts cfg signer (fun _ => .error e0) g).2.1 =
          .error (.errorMsg ACCOUNTS_FAIL_MSG))
    ∧ (∀ (ε : Type) (cfg : Config) (t : Request → Except ε (List Account))
        (g : UuidGen) (e0 : ε),
        (getAccounts cfg (fun _ _ => .error e0) t g).2.1 =
          .error (.errorMsg ACCOUNTS_FAIL_MSG)) := by
  refine ⟨?_, ?_, ?_⟩
  · intro ε cfg signer t g e h
    exact getAccounts_error_eq cfg signer t g e h
  · intro ε cfg signer g e0
    simp only [getAccounts]
    split
    · rfl
    · rfl
  · intro ε cfg t g e0
    simp only [getAccounts]
    by_cases hb : (falsy cfg.accessKey || falsy cfg.secretKey) = true
    · simp [getAuthHeaders, hb]
    · have hs : falsy cfg.secretKey = false := by
        rcases Bool.or_eq_false_iff.mp (Bool.not_eq_true _ |>.mp hb) with ⟨_, h2⟩
        exact h2
      simp [getAuthHeaders, hb, generateJWT, hs, jwtResultToHeaders]
      by_cases ha : falsy cfg.accessKey = true <;> simp [ha]


/-- Witness for C1: with full credentials and a failing transport,
`getAccounts` fails, and the theorem gives that its error is the fixed
generic one. -/
theorem getAccounts_generic_error_witness :
    (getAccounts cfgFull signerOk (fun _ => Except.error ()) gen0).2.1 =
        Except.error (.errorMsg ACCOUNTS_FAIL_MSG) ∧
      (JSError.errorMsg ACCOUNTS_FAIL_MSG : JSError Unit) =
        .errorMsg ACCOUNTS_FAIL_MSG :=
  ⟨rfl, getAccounts_generic_error.1 Unit cfgFull signerOk (fun _ => Except.error ())
    gen0 (.errorMsg ACCOUNTS_FAIL_MSG) rfl⟩

/-- C2: if the access key or the secret key is unconfigured (falsy),
`getAccounts` fails with the generic authentication error and issues zero
requests; and no public operation reads the credentials — each public
operation is invariant under arbitrary replacement of both keys. -/
theorem missing_credentials_no_network :
    (∀ (ε : Type) (cfg : Config) (signer : Signer ε)
        (t : Request → Except ε (List Account)) (g : UuidGen),
        falsy cfg.accessKey = true ∨ falsy cfg.secretKey = true →
        (getAccounts cfg signer t g).1 = [] ∧
        (getAccounts cfg signer t g).2.1 = .error (.errorMsg ACCOUNTS_FAIL_MSG))
    ∧ (∀ (ε : Type) (cfg : Config) (a s : Option String)
        (t : Request → Except ε (List Market)),
        getMarkets { cfg with accessKey := a, secretKey := s } t = getMarkets cfg t)
    ∧ (∀ (ε : Type) (cfg : Config) (a s : Option String)
        (t : Request → Except ε (List MinuteCandle)) (market : String)
        (unit count : Nat),
        getMinuteCandles { cfg with accessKey := a, secretKey := s } t market unit count
          = getMinuteCandles cfg t market unit count)
    ∧ (∀ (ε : Type) (cfg : Config) (a s : Option String)
        (t : Request → Except ε (List DayCandle)) (market : String) (count : Nat)
        (cpu : Option String),
        getDayCandles { cfg with accessKey := a, secretKey := s } t market count cpu
          = getDayCandles cfg t market count cpu)
    ∧ (∀ (ε : Type) (cfg : Config) (a s : Option String)
        (t : Request → Except ε (List Ticker)) (markets : List String),
        getTicker { cfg with accessKey := a, secretKey := s } t markets
          = getTicker cfg t markets) := by
  refine ⟨?_, ?_, ?_, ?_, ?_⟩
  · intro ε cfg signer t g h
    have hm := getAuthHeaders_missing cfg signer g h
    constructor <;> simp [getAccounts, hm]
  · intro ε cfg a s t; rfl
  · intro ε cfg a s t market unit count; rfl
  · intro ε cfg a s t market count cpu; rfl
  · intro ε cfg a s t markets; rfl

/-- Witness for C2: with no keys configured and a transport that would
succeed, `getAccounts` still issues no request and fails generically. -/
theorem missing_credentials_no_network_witness :
    (getAccounts cfgNoKeys signerOk (fun _ => Except.ok []) gen0).1 = [] ∧
    (getAccounts cfgNoKeys signerOk (fun _ => Except.ok []) gen0).2.1 =
      Except.error (.errorMsg ACCOUNTS_FAIL_MSG) :=
  missing_credentials_no_network.1 Unit cfgNoKeys signerOk
    (fun _ => Except.ok []) gen0 (Or.inl rfl)

/-- C3: `getTicker` issues exactly one request, on `/v1/ticker`, whose
single query parameter `markets` is the comma-separated in-order join of
the market codes; in particular for `["A", "B"]` the value is `"A,B"`. -/
theorem getTicker_single_request :
    ∀ (ε : Type) (cfg : Config) (t : Request → Except ε (List Ticker))
      (markets : List String),
      (getTicker cfg t markets).1 =
        [{ url := cfg.baseURL ++ "/v1/ticker",
           params := [("markets", String.intercalate "," markets)],
           headers := [("Accept", "application/json")] }] ∧
      (getTicker cfg t ["A", "B"]).1.map Request.params =
        [[("markets", "A,B")]] := by
  intro ε cfg t markets
  exact ⟨rfl, rfl⟩

/-- C6: each public operation (markets, minute candles, day candles,
ticker) issues exactly one request and returns exactly the transport's
verdict on it — in particular a transport error reaches the caller as the
very same error value, unwrapped. -/
theorem public_transport_propagation :
    ∀ (ε : Type) (cfg : Config),
      (∀ (t : Request → Except ε (List Market)),
        ∃ r, (getMarkets cfg t).1 = [r] ∧ (getMarkets cfg t).2 = t r)
      ∧ (∀ (t : Request → Except ε (List MinuteCandle)) (market : String)
          (unit count : Nat),
          ∃ r, (getMinuteCandles cfg t market unit count).1 = [r] ∧
            (getMinuteCandles cfg t market unit count).2 = t r)
      ∧ (∀ (t : Request → Except ε (List DayCandle)) (market : String)
          (count : Nat) (cpu : Option String),
          ∃ r, (getDayCandles cfg t market count cpu).1 = [r] ∧
            (getDayCandles cfg t market count cpu).2 = t r)
      ∧ (∀ (t : Request → Except ε (List Ticker)) (markets : List String),
          ∃ r, (getTicker cfg t markets).1 = [r] ∧
            (getTicker cfg t markets).2 = t r) := by
  intro ε cfg
  refine ⟨fun t => ⟨_, rfl, rfl⟩, fun t market unit count => ⟨_, rfl, rfl⟩,
    fun t market count cpu => ⟨_, rfl, rfl⟩, fun t markets => ⟨_, rfl, ?_⟩⟩
  rcases ht : t (publicReq cfg "/v1/ticker"
      [("markets", String.intercalate "," markets)]) with e | v <;>
    simp [getTicker, ht]

/-- C4: both converters are length-preserving and order-preserving, and
pointwise map each candle to the chart point {time = KST timestamp field,
open/high/low = the price fields, close = trade price,
volume = accumulated trade volume}. -/
theorem toChartData_pointwise :
    ∀ (ms : List MinuteCandle) (ds : List DayCandle),
      (convertMinuteCandleToChartData ms).length = ms.length ∧
      (convertDayCandleToChartData ds).length = ds.length ∧
      (∀ (i : Nat) (c : MinuteCandle), ms[i]? = some c →
        ∃ p, (convertMinuteCandleToChartData ms)[i]? = some p ∧
          p.time = c.candle_date_time_kst ∧ p.«open» = c.opening_price ∧
          p.high = c.high_price ∧ p.low = c.low_price ∧
          p.close = c.trade_price ∧ p.volume = c.candle_acc_trade_volume) ∧
      (∀ (i : Nat) (c : DayCandle), ds[i]? = some c →
        ∃ p, (convertDayCandleToChartData ds)[i]? = some p ∧
          p.time = c.candle_date_time_kst ∧ p.«open» = c.opening_price ∧
          p.high = c.high_price ∧ p.low = c.low_price ∧
          p.close = c.trade_price ∧ p.volume = c.candle_acc_trade_volume) := by
  intro ms ds
  refine ⟨by simp [convertMinuteCandleToChartData],
    by simp [convertDayCandleToChartData], ?_, ?_⟩
  · intro i c hc
    refine ⟨CandleChartData.mk c.candle_date_time_kst c.opening_price
      c.high_price c.low_price c.trade_price c.candle_acc_trade_volume,
      ?_, rfl, rfl, rfl, rfl, rfl, rfl⟩
    simp [convertMinuteCandleToChartData, List.getElem?_map, hc]
  · intro i c hc
    refine ⟨CandleChartData.mk c.candle_date_time_kst c.opening_price
      c.high_price c.low_price c.trade_price c.candle_acc_trade_volume,
      ?_, rfl, rfl, rfl, rfl, rfl, rfl⟩
    simp [convertDayCandleToChartData, List.getElem?_map, hc]

/-- Witness for C4: the singleton minute-candle list converts to the
expected chart point at index 0. -/
theorem toChartData_pointwise_witness :
    ∃ p, (convertMinuteCandleToChartData [mcEx])[0]? = some p ∧
      p.time = mcEx.candle_date_time_kst ∧ p.«open» = mcEx.opening_price ∧
      p.high = mcEx.high_price ∧ p.low = mcEx.low_price ∧
      p.close = mcEx.trade_price ∧ p.volume = mcEx.candle_acc_trade_volume :=
  (toChartData_pointwise [mcEx] [dcEx]).2.2.1 0 mcEx rfl

/-- C9: the two converters compute the same function of the shared candle
fields — candle lists that agree pointwise on the shared fields convert to
identical chart-point lists. -/
theorem converters_equivalent :
    ∀ (ms : List MinuteCandle) (ds : List DayCandle),
      ms.map MinuteCandle.shared = ds.map DayCandle.shared →
      convertMinuteCandleToChartData ms = convertDayCandleToChartData ds := by
  intro ms ds h
  have hm : convertMinuteCandleToChartData ms
      = (ms.map MinuteCandle.shared).map chartPointOfShared := by
    rw [List.map_map]; rfl
  have hd : convertDayCandleToChartData ds
      = (ds.map DayCandle.shared).map chartPointOfShared := by
    rw [List.map_map]; rfl
  rw [hm, hd, h]

/-- Witness for C9: the two concrete candles share the common fields, so
their conversions coincide. -/
theorem converters_equivalent_witness :
    convertMinuteCandleToChartData [mcEx] = convertDayCandleToChartData [dcEx] :=
  converters_equivalent [mcEx] [dcEx] rfl

/-- The fixture uuid stream never repeats a value. -/
lemma gen0_supply_injective : Function.Injective gen0.supply := by
  intro m n h
  have h2 : List.replicate m 'a' = List.replicate n 'a' := congrArg String.data h
  simpa using congrArg List.length h2

/-- C7: every invocation of the signing path constructs a fresh claim set
{access_key, nonce} with a newly generated nonce: two invocations in
immediate succession with identical configuration draw consecutive stream
positions, hence distinct nonces (for a non-repeating uuid stream) with the
same access key; and with credentials present, `getAuthHeaders` signs
exactly the freshly built claim set and advances the stream by one — no
nonce or token is carried over from a previous invocation. -/
theorem signing_fresh_nonce :
    ∀ (cfg : Config) (g : UuidGen),
      Function.Injective g.supply →
      (freshClaims cfg g).1.nonce ≠ (freshClaims cfg (freshClaims cfg g).2).1.nonce
      ∧ (freshClaims cfg g).1.access_key
          = (freshClaims cfg (freshClaims cfg g).2).1.access_key
      ∧ (freshClaims cfg g).2.counter = g.counter + 1
      ∧ ∀ (ε : Type) (signer : Signer ε),
          falsy cfg.accessKey = false → falsy cfg.secretKey = false →
          getAuthHeaders cfg signer g =
            (jwtResultToHeaders (generateJWT cfg signer (freshClaims cfg g).1),
              (freshClaims cfg g).2) := by
  intro cfg g hinj
  refine ⟨?_, rfl, rfl, ?_⟩
  · intro h
    have h2 : g.counter = g.counter + 1 := hinj h
    omega
  · intro ε signer ha hs
    simp [getAuthHeaders, ha, hs]

/-- Witness for C7: the concrete stream `gen0` is injective, and the two
successive claim sets built from it carry distinct nonces. -/
theorem signing_fresh_nonce_witness :
    (freshClaims cfgFull gen0).1.nonce ≠
      (freshClaims cfgFull (freshClaims cfgFull gen0).2).1.nonce :=
  (signing_fresh_nonce cfgFull gen0 gen0_supply_injective).1

/-- Unfolding of `formatChangeRate`: the sign character comes from the raw
rate's sign, the digits from the magnitude of the percentage rounded to
hundredths half-up. -/
lemma formatChangeRate_render (rate : ℚ) :
    formatChangeRate rate
      = (if 0 ≤ rate then "+" else "-") ++ natRepr (pctHundredths rate / 100)
        ++ "." ++ pad2 (pctHundredths rate % 100) ++ "%" := by
  by_cases h : 0 ≤ rate
  · have h2 : ¬ rate * 100 < 0 := by nlinarith
    have ha : |rate| = rate := abs_of_nonneg h
    simp only [formatChangeRate, toFixed2, toFixed2Abs, pctHundredths,
      ge_iff_le, h, if_true, h2, if_false, ha, String.append_assoc]
  · have hlt : rate < 0 := lt_of_not_le h
    have h2 : rate * 100 < 0 := by nlinarith
    have ha : |rate| = -rate := abs_of_neg hlt
    have harg : -(rate * 100) * 100 + 1 / 2 = -rate * 100 * 100 + 1 / 2 := by
      ring
    simp only [formatChangeRate, toFixed2, toFixed2Abs, pctHundredths,
      ge_iff_le, h, if_false, h2, if_true, ha, harg, String.empty_append,
      String.append_assoc]

/-- `pad2` of a value below 100 has exactly two characters. -/
lemma pad2_length (k : Nat) (hk : k < 100) : (pad2 k).length = 2 := by
  have hall : ∀ m : Fin 100, (pad2 m.val).length = 2 := by decide
  exact hall ⟨k, hk⟩

/-- C5: `formatChangeRate` renders the rate as a percentage: the sign
prefix is `"+"` exactly for non-negative rates, then the percentage value
(rate·100) rounded to hundredths, a decimal point, exactly two decimal
digits, and a trailing `"%"`; in particular `0.0523 ↦ "+5.23%"` and
`-0.01 ↦ "-1.00%"`. -/
theorem formatChangeRate_spec :
    (∀ rate : ℚ, formatChangeRate rate
        = (if 0 ≤ rate then "+" else "-") ++ natRepr (pctHundredths rate / 100)
          ++ "." ++ pad2 (pctHundredths rate % 100) ++ "%")
    ∧ (∀ rate : ℚ, (pad2 (pctHundredths rate % 100)).length = 2)
    ∧ formatChangeRate (523 / 10000) = "+5.23%"
    ∧ formatChangeRate (-(1 / 100)) = "-1.00%" := by
  refine ⟨formatChangeRate_render, ?_, ?_, ?_⟩
  · intro rate
    exact pad2_length _ (Nat.mod_lt _ (by norm_num))
  · rw [formatChangeRate_render]
    have h0 : (0 : ℚ) ≤ 523 / 10000 := by norm_num
    have hp : pctHundredths (523 / 10000) = 523 := by
      unfold pctHundredths
      rw [abs_of_nonneg h0]
      have hf : ⌊(523 : ℚ) / 10000 * 100 * 100 + 1 / 2⌋ = 523 := by
        norm_num [Int.floor_eq_iff]
      rw [hf]
      rfl
    rw [if_pos h0, hp]
    rfl
  · rw [formatChangeRate_render]
    have h0 : ¬ (0 : ℚ) ≤ -(1 / 100) := by norm_num
    have hp : pctHundredths (-(1 / 100)) = 100 := by
      unfold pctHundredths
      have ha : |(-(1 / 100) : ℚ)| = 1 / 100 := by
        rw [abs_of_neg (by norm_num : (-(1 / 100) : ℚ) < 0)]
        norm_num
      rw [ha]
      have hf : ⌊(1 : ℚ) / 100 * 100 * 100 + 1 / 2⌋ = 100 := by
        norm_num [Int.floor_eq_iff]
      rw [hf]
      rfl
    rw [if_neg h0, hp]
    rfl

/-- C10: the sign prefix of `formatChangeRate` follows the raw rate's
sign, not the rounded display value: a strictly negative rate whose
magnitude rounds to zero hundredths of a percent renders as `"-0.00%"`. -/
theorem formatChangeRate_negative_zero :
    ∀ rate : ℚ, rate < 0 → |rate| < 1 / 20000 →
      formatChangeRate rate = "-0.00%" := by
  intro rate hneg habs
  rw [formatChangeRate_render]
  have h0 : ¬ (0 : ℚ) ≤ rate := not_le.mpr hneg
  have hp : pctHundredths rate = 0 := by
    unfold pctHundredths
    have h1 : (0 : ℚ) ≤ |rate| * 100 * 100 + 1 / 2 := by positivity
    have h2 : |rate| * 100 * 100 + 1 / 2 < 1 := by nlinarith [abs_nonneg rate]
    have hf : ⌊|rate| * 100 * 100 + 1 / 2⌋ = 0 :=
      Int.floor_eq_zero_iff.mpr ⟨h1, h2⟩
    rw [hf]
    rfl
  rw [if_neg h0, hp]
  rfl

/-- Witness for C10: the rate -0.00001 is negative with magnitude below
0.00005 and renders as "-0.00%". -/
theorem formatChangeRate_negative_zero_witness :
    formatChangeRate (-(1 / 100000)) = "-0.00%" :=
  formatChangeRate_negative_zero (-(1 / 100000)) (by norm_num)
    (by rw [abs_of_neg (by norm_num : (-(1 / 100000) : ℚ) < 0)]; norm_num)

/-- Removing the inserted separators undoes the grouping step. -/
lemma group3Aux_filter (fuel : Nat) :
    ∀ rds : List Char,
      (group3Aux fuel rds).filter (fun c => c != ',') =
        rds.filter (fun c => c != ',') := by
  induction fuel with
  | zero => intro rds; rfl
  | succ f ih =>
      intro rds
      simp only [group3Aux]
      split
      · rfl
      · rw [List.filter_append, List.filter_append, ih]
        have hc : List.filter (fun c => c != ',') [','] = [] := rfl
        rw [hc, List.append_nil, ← List.filter_append, List.take_append_drop]

/-- Digit characters produced by `natDigitsAux` are never the comma. -/
lemma natDigitsAux_no_comma :
    ∀ (fuel n : Nat), ∀ c ∈ natDigitsAux fuel n, c != ',' := by
  intro fuel
  induction fuel with
  | zero => intro n c hc; simp [natDigitsAux] at hc
  | succ f ih =>
      intro n c hc
      simp only [natDigitsAux] at hc
      by_cases hn : n = 0
      · rw [if_pos hn] at hc; simp at hc
      · rw [if_neg hn] at hc
        rcases List.mem_append.mp hc with h | h
        · exact ih _ c h
        · have hd : c = Char.ofNat (48 + n % 10) := by simpa using h
          subst hd
          have hm : n % 10 < 10 := Nat.mod_lt _ (by norm_num)
          have hall : ∀ m : Fin 10, (Char.ofNat (48 + m.val) != ',') = true := by
            decide
          exact hall ⟨n % 10, hm⟩

/-- The decimal digits of a natural number contain no comma. -/
lemma natDigits_no_comma (n : Nat) : ∀ c ∈ natDigits n, c != ',' := by
  intro c hc
  unfold natDigits at hc
  by_cases hn : n = 0
  · rw [if_pos hn] at hc
    simp at hc
    subst hc
    decide
  · rw [if_neg hn] at hc
    exact natDigitsAux_no_comma n n c hc

/-- Removing the commas from a grouped comma-free digit list restores it. -/
lemma groupDigits_filter (ds : List Char) (hd : ∀ c ∈ ds, c != ',') :
    (groupDigits ds).filter (fun c => c != ',') = ds := by
  unfold groupDigits
  rw [List.filter_reverse, group3Aux_filter, List.filter_reverse,
    List.reverse_reverse]
  exact List.filter_eq_self.mpr hd

/-- `Math.round` lands on a nearest integer: no integer is strictly closer
to the input. -/
lemma jsRound_nearest (x : ℚ) (m : ℤ) :
    |x - (jsRound x : ℚ)| ≤ |x - (m : ℚ)| := by
  simp only [jsRound]
  have h1 : ((⌊x + 1 / 2⌋ : ℤ) : ℚ) ≤ x + 1 / 2 := Int.floor_le _
  have h2 : x + 1 / 2 < (⌊x + 1 / 2⌋ : ℚ) + 1 := Int.lt_floor_add_one _
  have habs : |x - (⌊x + 1 / 2⌋ : ℚ)| ≤ 1 / 2 :=
    abs_le.mpr ⟨by linarith, by linarith⟩
  rcases lt_trichotomy m ⌊x + 1 / 2⌋ with hm | hm | hm
  · have hm1 : (m : ℚ) + 1 ≤ (⌊x + 1 / 2⌋ : ℚ) := by
      exact_mod_cast Int.add_one_le_iff.mpr hm
    have hge : 1 / 2 ≤ x - (m : ℚ) := by linarith
    calc |x - (⌊x + 1 / 2⌋ : ℚ)| ≤ 1 / 2 := habs
      _ ≤ x - (m : ℚ) := hge
      _ ≤ |x - (m : ℚ)| := le_abs_self _
  · rw [hm]
  · have hm1 : (⌊x + 1 / 2⌋ : ℚ) + 1 ≤ (m : ℚ) := by
      exact_mod_cast Int.add_one_le_iff.mpr hm
    have hge : 1 / 2 ≤ -(x - (m : ℚ)) := by linarith
    calc |x - (⌊x + 1 / 2⌋ : ℚ)| ≤ 1 / 2 := habs
      _ ≤ -(x - (m : ℚ)) := hge
      _ ≤ |x - (m : ℚ)| := neg_le_abs _

/-- C8: `formatPrice` renders the amount rounded to a nearest integer
(`jsRound`, which no integer beats in distance) with comma grouping:
removing the grouping commas leaves exactly the plain decimal rendering of
the rounded value; concretely `formatPrice 1234567.6 = "1,234,568"`. -/
theorem formatPrice_spec :
    (∀ price : ℚ,
        (formatPrice price).data.filter (fun c => c != ',')
          = (plainIntRepr (jsRound price)).data)
    ∧ (∀ (price : ℚ) (m : ℤ),
        |price - (jsRound price : ℚ)| ≤ |price - (m : ℚ)|)
    ∧ formatPrice (12345676 / 10) = "1,234,568" := by
  refine ⟨?_, fun price m => jsRound_nearest price m, ?_⟩
  · intro price
    unfold formatPrice intlFormatInt plainIntRepr
    have key : ∀ k : Nat,
        (String.mk (groupDigits (natDigits k))).data.filter (fun c => c != ',')
          = (natRepr k).data :=
      fun k => groupDigits_filter (natDigits k) (natDigits_no_comma k)
    by_cases hn : jsRound price < 0
    · rw [if_pos hn, String.data_append, String.data_append,
        List.filter_append, key]
      congr 1
    · rw [if_neg hn, String.data_append, String.data_append,
        List.filter_append, key]
      congr 1
  · have hj : jsRound (12345676 / 10) = 1234568 := by
      unfold jsRound
      norm_num [Int.floor_eq_iff]
    unfold formatPrice
    rw [hj]
    rfl
